import Mathlib

/-
Shallow embedding of proj2_nps.py (cache-backed retrieval of national-site
records).  The program keeps a process-wide dictionary CACHE_DICT, loaded
from a JSON file at startup, and routes every retrieval through it.

Modelling choices:
  * JSON values stored in the cache are modelled by `JVal`.  The program
    only ever stores strings, arrays of strings (the per-state link lists)
    and string-valued objects (entity field mappings, the state-url dict,
    and the MapQuest payloads are treated as opaque `JVal`s), so `JVal`
    covers the shapes the claims are about.
  * The Python dict is modelled as an association list with
    first-match lookup and in-place overwrite on insert.
  * The on-disk cache file is modelled three-valued: `none` = file absent,
    `some none` = file exists but its content is not valid JSON (this is
    what `open(filename, "w"): pass` produces -- a zero-byte file, which
    `json.loads` rejects), `some (some m)` = file holds the JSON
    serialization of the store `m` (json.dumps/json.loads round-trip is
    modelled as the identity).
  * An HTTP interaction is a value of `HFetch`: either a transport error
    (`requests.get` raising) or a response with a status code and a parsed
    body.  The parsed detail page is a `SiteDoc`: each BeautifulSoup
    locator used by `get_site_instance` either finds a string or does not
    (`soup.find` returning `None`, which makes `.text` raise and lands in
    the `except` branch).
  * Raised exceptions are modelled as `Except.error ()`; every stateful
    operation also returns the cache state it leaves behind, so that
    "the cache is unchanged on failure" is statable.
  * The `Bool` returned by `get_site_instance` and `build_state_url_dict`
    records whether a network request was performed (the code's
    "Fetching" branch, i.e. the call to `requests.get`).
-/

inductive JVal where
  | jstr : String → JVal
  | jarrs : List String → JVal
  | jobjs : List (String × String) → JVal
  deriving DecidableEq, Repr

/-- Python dict lookup (`k in d` / `d[k]`) on an association list. -/
def alistLookup {α : Type} : List (String × α) → String → Option α
  | [], _ => none
  | (k2, v) :: rest, k => if k2 = k then some v else alistLookup rest k

/-- Python dict assignment `d[k] = v`: overwrite in place, else append. -/
def alistInsert {α : Type} : List (String × α) → String → α → List (String × α)
  | [], k, v => [(k, v)]
  | (k2, v2) :: rest, k, v =>
    if k2 = k then (k, v) :: rest else (k2, v2) :: alistInsert rest k v

abbrev CacheMap := List (String × JVal)

/-- The on-disk cache file: absent / present-but-not-JSON / a JSON store. -/
abbrev Disk := Option (Option CacheMap)

structure CState where
  mem : CacheMap
  disk : Disk
  deriving DecidableEq, Repr

/-- `save_cache`: `json.dumps` the whole store and overwrite the file. -/
def save_cache (cache_dict : CacheMap) : Disk :=
  some (some cache_dict)

/-- `open_cache`: read + `json.loads`; on `FileNotFoundError` create the
file with `open(filename, "w"): pass` (empty content, not valid JSON) and
return `{}`; a `json.loads` failure propagates (modelled as `.error`). -/
def open_cache (disk : Disk) : Except Unit CacheMap × Disk :=
  match disk with
  | none => (.ok [], some none)
  | some none => (.error (), some none)
  | some (some m) => (.ok m, some (some m))

/-- `construct_unique_key`: start from the endpoint and append
`connector + name + connector + value` for each parameter in order.
(The source gives `connector` the default value `"_"`; every call site
uses that default, and the theorems below pass it explicitly.) -/
def construct_unique_key (base_url : String) (params : List (String × String))
    (connector : String) : String :=
  params.foldl (fun out kv => out ++ (connector ++ kv.1 ++ connector ++ kv.2)) base_url

inductive HFetch (α : Type) where
  | terr : HFetch α
  | resp : Nat → α → HFetch α
  deriving DecidableEq, Repr

/-- The six BeautifulSoup locator results on a site detail page. -/
structure SiteDoc where
  heroTitle : Option String
  heroDesignation : Option String
  postalCode : Option String
  telephone : Option String
  addressLocality : Option String
  addressRegion : Option String
  deriving DecidableEq, Repr

structure NationalSite where
  category : String
  name : String
  address : String
  zipcode : String
  phone : String
  deriving DecidableEq, Repr

def nameField (d : SiteDoc) : String :=
  match d.heroTitle with
  | some s => s.trim
  | none => "No Name"

def cateField (d : SiteDoc) : String :=
  match d.heroDesignation with
  | some s => s.trim
  | none => "No Category"

def zipField (d : SiteDoc) : String :=
  match d.postalCode with
  | some s => s.trim
  | none => "No Zipcode"

def phoneField (d : SiteDoc) : String :=
  match d.telephone with
  | some s => s.trim
  | none => "No Phone"

/-- The compound address try-block: `city` is located first; if either
lookup raises, the whole field falls back to `"No Address"`. -/
def addressField (d : SiteDoc) : String :=
  match d.addressLocality with
  | none => "No Address"
  | some city =>
    match d.addressRegion with
    | none => "No Address"
    | some state => city.trim ++ ", " ++ state.trim

/-- The extraction block of `get_site_instance` (lines 114-135). -/
def extractSite (d : SiteDoc) : NationalSite :=
  ⟨cateField d, nameField d, addressField d, zipField d, phoneField d⟩

/-- The dict literal cached at line 137. -/
def siteToJobj (s : NationalSite) : JVal :=
  .jobjs [("category", s.category), ("name", s.name), ("address", s.address),
          ("zipcode", s.zipcode), ("phone", s.phone)]

def fiveNames : List String := ["category", "name", "address", "zipcode", "phone"]

/-- `NationalSite(**json_dict)`: keyword expansion of a cached value.  It
succeeds iff the value is an object that supplies every parameter of
`NationalSite.__init__` and has no unexpected key; otherwise a `TypeError`
is raised (modelled as `none`). -/
def siteFromKwargs (v : JVal) : Option NationalSite :=
  match v with
  | .jobjs fields =>
    match alistLookup fields "category", alistLookup fields "name",
          alistLookup fields "address", alistLookup fields "zipcode",
          alistLookup fields "phone" with
    | some c, some n, some a, some z, some p =>
      if fields.all (fun kv => decide (kv.1 ∈ fiveNames)) then some ⟨c, n, a, z, p⟩
      else none
    | _, _, _, _, _ => none
  | _ => none

/-- `get_site_instance`.  `f` is the network: `f url` is what
`requests.get(url)` + BeautifulSoup parsing yields for `url`.  The status
code of a response is never inspected by the source, and the model
mirrors that. -/
def get_site_instance (f : String → HFetch SiteDoc) (site_url : String)
    (st : CState) : Except Unit (NationalSite × Bool) × CState :=
  match alistLookup st.mem site_url with
  | some json_dict =>
    match siteFromKwargs json_dict with
    | some s => (.ok (s, false), st)
    | none => (.error (), st)
  | none =>
    match f site_url with
    | .terr => (.error (), st)
    | .resp _ doc =>
      let site := extractSite doc
      let mem2 := alistInsert st.mem site_url (siteToJobj site)
      (.ok (site, true), ⟨mem2, save_cache mem2⟩)

/-- `build_state_url_dict`.  `idx` is the fetch of the single index page
`"https://www.nps.gov" + "/index.htm"`; its body is the list of
(anchor text, href) pairs found in the dropdown list. -/
def build_state_url_dict (idx : HFetch (List (String × String))) (st : CState) :
    Except Unit (JVal × Bool) × CState :=
  let base_url := "https://www.nps.gov"
  let main_url := "/index.htm"
  let unique_key := base_url ++ main_url
  match alistLookup st.mem unique_key with
  | some v => (.ok (v, false), st)
  | none =>
    match idx with
    | .terr => (.error (), st)
    | .resp _ anchors =>
      let out_dict := anchors.foldl
        (fun d a => alistInsert d a.1.toLower (base_url ++ a.2)) []
      let mem2 := alistInsert st.mem unique_key (.jobjs out_dict)
      (.ok (.jobjs out_dict, true), ⟨mem2, save_cache mem2⟩)

structure Remote where
  statePage : String → HFetch (List String)
  sitePage : String → HFetch SiteDoc

/-- The `for park_url in links` loop of `get_sites_for_state`. -/
def sitesLoop (f : String → HFetch SiteDoc) :
    List String → CState → Except Unit (List NationalSite) × CState
  | [], st => (.ok [], st)
  | park_url :: rest, st =>
    match get_site_instance f park_url st with
    | (.ok (site, _), st2) =>
      match sitesLoop f rest st2 with
      | (.ok sites, st3) => (.ok (site :: sites), st3)
      | (.error e, st3) => (.error e, st3)
    | (.error e, st2) => (.error e, st2)

/-- `get_sites_for_state`.  On a miss the link list is cached under the
state URL with no `save_cache` call (faithful to the source, which only
assigns `CACHE_DICT[state_url] = links`).  A cached value that is not an
array of strings makes the iteration fail.  Values the program itself
stores under state URLs are always string arrays. -/
def get_sites_for_state (R : Remote) (state_url : String) (st : CState) :
    Except Unit (List NationalSite) × CState :=
  match alistLookup st.mem state_url with
  | some links =>
    match links with
    | .jarrs ls => sitesLoop R.sitePage ls st
    | _ => (.error (), st)
  | none =>
    match R.statePage state_url with
    | .terr => (.error (), st)
    | .resp _ hrefs =>
      let links := hrefs.map (fun h => "https://www.nps.gov" ++ h)
      let mem2 := alistInsert st.mem state_url (.jarrs links)
      sitesLoop R.sitePage links ⟨mem2, st.disk⟩

/-- The parameter dict built at lines 193-198, in its insertion order. -/
def nearbyParams (apiKey zipcode : String) : List (String × String) :=
  [("key", apiKey), ("origin", zipcode), ("radius", "10"), ("maxMatches", "10"),
   ("ambiguities", "ignore"), ("outFormat", "json")]

def nearbyKey (apiKey zipcode : String) : String :=
  construct_unique_key "http://www.mapquestapi.com/search/v2/radius"
    (nearbyParams apiKey zipcode) "_"

/-- `get_nearby_places`.  `api` is the outcome of the MapQuest request;
`apiKey` is `secrets.API_KEY` and `zipcode` is `site_object.zipcode`.
A non-200 status raises before anything is cached; on success the raw
payload is cached under the unique key and returned. -/
def get_nearby_places (api : HFetch JVal) (apiKey zipcode : String)
    (st : CState) : Except Unit JVal × CState :=
  let unique_key := nearbyKey apiKey zipcode
  match alistLookup st.mem unique_key with
  | some out_dict => (.ok out_dict, st)
  | none =>
    match api with
    | .terr => (.error (), st)
    | .resp status payload =>
      if status ≠ 200 then (.error (), st)
      else
        let mem2 := alistInsert st.mem unique_key payload
        (.ok payload, ⟨mem2, save_cache mem2⟩)

/-
Helper lemmas about the association-list dictionary.
-/

theorem alistLookup_insert_self {α : Type} (m : List (String × α)) (k : String) (v : α) :
    alistLookup (alistInsert m k v) k = some v := by
  induction m with
  | nil => simp [alistInsert, alistLookup]
  | cons kv rest ih =>
    by_cases h : kv.1 = k
    · simp [alistInsert, h, alistLookup]
    · simp [alistInsert, h, alistLookup, ih]

theorem alistLookup_isSome_iff_mem {α : Type} (m : List (String × α)) (k : String) :
    (alistLookup m k).isSome ↔ k ∈ m.map Prod.fst := by
  induction m with
  | nil => simp [alistLookup]
  | cons kv rest ih =>
    by_cases h : kv.1 = k
    · simp [alistLookup, h]
    · have h2 : ¬ (k = kv.1) := fun e => h e.symm
      simp [alistLookup, h, ih, h2]

/-
Machinery for the key-builder injectivity argument: a key built from
connector-free components can be split back at the connector.
-/

def splitU : List Char → List (List Char)
  | [] => [[]]
  | c :: cs =>
    let r := splitU cs
    if c = '_' then [] :: r else (c :: r.headD []) :: r.tail

theorem splitU_underFree (u : List Char) (hu : '_' ∉ u) : splitU u = [u] := by
  induction u with
  | nil => rfl
  | cons c cs ih =>
    have hc : ¬ (c = '_') := fun h => hu (by simp [h])
    have hcs : '_' ∉ cs := fun h => hu (List.mem_cons_of_mem _ h)
    simp [splitU, hc, ih hcs]

theorem splitU_append (u r : List Char) (hu : '_' ∉ u) :
    splitU (u ++ '_' :: r) = u :: splitU r := by
  induction u with
  | nil => simp [splitU]
  | cons c cs ih =>
    have hc : ¬ (c = '_') := fun h => hu (by simp [h])
    have hcs : '_' ∉ cs := fun h => hu (List.mem_cons_of_mem _ h)
    simp [splitU, hc, ih hcs]

def flatC : List (List Char × List Char) → List Char
  | [] => []
  | nv :: rest => '_' :: (nv.1 ++ ('_' :: (nv.2 ++ flatC rest)))

def interC : List (List Char × List Char) → List (List Char)
  | [] => []
  | nv :: rest => nv.1 :: nv.2 :: interC rest

theorem splitU_flat (ps : List (List Char × List Char)) :
    ∀ u : List Char, '_' ∉ u →
    (∀ nv ∈ ps, '_' ∉ nv.1 ∧ '_' ∉ nv.2) →
    splitU (u ++ flatC ps) = u :: interC ps := by
  induction ps with
  | nil =>
    intro u hu _
    simp [flatC, interC, splitU_underFree u hu]
  | cons nv rest ih =>
    intro u hu hps
    have hn : '_' ∉ nv.1 := (hps nv (List.mem_cons_self _ _)).1
    have hv : '_' ∉ nv.2 := (hps nv (List.mem_cons_self _ _)).2
    have hrest : ∀ x ∈ rest, '_' ∉ x.1 ∧ '_' ∉ x.2 :=
      fun x hx => hps x (List.mem_cons_of_mem _ hx)
    rw [flatC, splitU_append u _ hu, splitU_append nv.1 _ hn, ih nv.2 hv hrest]
    rfl

theorem interC_inj : ∀ ps qs, interC ps = interC qs → ps = qs := by
  intro ps
  induction ps with
  | nil =>
    intro qs h
    cases qs with
    | nil => rfl
    | cons nv rest => simp [interC] at h
  | cons nv rest ih =>
    intro qs h
    cases qs with
    | nil => simp [interC] at h
    | cons nv2 rest2 =>
      simp only [interC, List.cons.injEq] at h
      obtain ⟨h1, h2, h3⟩ := h
      have h4 := ih rest2 h3
      cases nv; cases nv2
      simp_all

theorem string_eq_of_data {s t : String} (h : s.data = t.data) : s = t := by
  cases s; cases t; exact congrArg String.mk h

theorem data_append (s t : String) : (s ++ t).data = s.data ++ t.data := rfl

def paramData (p : List (String × String)) : List (List Char × List Char) :=
  p.map (fun kv => (kv.1.data, kv.2.data))

theorem cuk_data (p : List (String × String)) :
    ∀ b : String, (construct_unique_key b p "_").data = b.data ++ flatC (paramData p) := by
  induction p with
  | nil => intro b; simp [construct_unique_key, paramData, flatC]
  | cons kv rest ih =>
    intro b
    have hstep : construct_unique_key b (kv :: rest) "_" =
        construct_unique_key (b ++ ("_" ++ kv.1 ++ "_" ++ kv.2)) rest "_" := rfl
    have hu : "_".data = ['_'] := rfl
    rw [hstep, ih]
    simp [data_append, paramData, flatC, hu, List.append_assoc]

theorem paramData_inj : ∀ p q, paramData p = paramData q → p = q := by
  intro p
  induction p with
  | nil =>
    intro q h
    cases q with
    | nil => rfl
    | cons kv rest => simp [paramData] at h
  | cons kv rest ih =>
    intro q h
    cases q with
    | nil => simp [paramData] at h
    | cons kv2 rest2 =>
      simp only [paramData, List.map_cons, List.cons.injEq, Prod.mk.injEq] at h
      obtain ⟨⟨h1, h2⟩, h3⟩ := h
      have h4 := ih rest2 h3
      obtain ⟨a, b⟩ := kv
      obtain ⟨a2, b2⟩ := kv2
      simp only at h1 h2
      rw [string_eq_of_data h1, string_eq_of_data h2, h4]

theorem paramData_underFree {p : List (String × String)}
    (hp : ∀ kv ∈ p, '_' ∉ (Prod.fst kv).data ∧ '_' ∉ (Prod.snd kv).data) :
    ∀ nv ∈ paramData p, '_' ∉ nv.1 ∧ '_' ∉ nv.2 := by
  intro nv hnv
  rw [paramData, List.mem_map] at hnv
  obtain ⟨kv, hkv, rfl⟩ := hnv
  exact hp kv hkv

/-
Claim C3.
-/

/-- C3 counterexample: the claim that two distinct inputs — in particular
the same parameter set supplied in a different order — always yield
different keys is false.  The two-parameter set below, supplied in its two
orders (a genuine permutation of distinct parameters), produces the same
key, because parameter names and values containing the connector make the
segment boundaries ambiguous. -/
theorem unique_key_collision_cex :
    ([(("a" : String), ("a" : String)), ("a_a", "a_a")] ≠
      [(("a_a" : String), ("a_a" : String)), ("a", "a")])
  ∧ List.Perm [(("a" : String), ("a" : String)), ("a_a", "a_a")]
      [(("a_a" : String), ("a_a" : String)), ("a", "a")]
  ∧ construct_unique_key "e" [("a", "a"), ("a_a", "a_a")] "_" =
      construct_unique_key "e" [("a_a", "a_a"), ("a", "a")] "_" := by
  refine ⟨by decide, ?_, by decide⟩
  exact List.Perm.swap _ _ _

/-- C3 (amended): `construct_unique_key` is deterministic — an identical
endpoint with identically ordered parameters yields an identical key — and
it is collision-resistant whenever the endpoint and all parameter names
and values are free of the connector character: two such inputs that
produce the same key are equal (so distinct ones, in particular the same
connector-free parameter set in a different order, yield different keys).
Inputs whose components embed the connector can collide. -/
theorem construct_unique_key_inj_amended :
    (∀ (b : String) (p₁ p₂ : List (String × String)), p₁ = p₂ →
       construct_unique_key b p₁ "_" = construct_unique_key b p₂ "_")
  ∧ (∀ (b₁ b₂ : String) (p₁ p₂ : List (String × String)),
       '_' ∉ b₁.data → '_' ∉ b₂.data →
       (∀ kv ∈ p₁, '_' ∉ (Prod.fst kv).data ∧ '_' ∉ (Prod.snd kv).data) →
       (∀ kv ∈ p₂, '_' ∉ (Prod.fst kv).data ∧ '_' ∉ (Prod.snd kv).data) →
       construct_unique_key b₁ p₁ "_" = construct_unique_key b₂ p₂ "_" →
       b₁ = b₂ ∧ p₁ = p₂) := by
  constructor
  · intro b p₁ p₂ h
    rw [h]
  · intro b₁ b₂ p₁ p₂ hb₁ hb₂ hp₁ hp₂ h
    have hd := congrArg String.data h
    rw [cuk_data p₁ b₁, cuk_data p₂ b₂] at hd
    have h₁ := splitU_flat (paramData p₁) b₁.data hb₁ (paramData_underFree hp₁)
    have h₂ := splitU_flat (paramData p₂) b₂.data hb₂ (paramData_underFree hp₂)
    have hs : b₁.data :: interC (paramData p₁) = b₂.data :: interC (paramData p₂) := by
      rw [← h₁, ← h₂, hd]
    injection hs with hb hi
    exact ⟨string_eq_of_data hb, paramData_inj _ _ (interC_inj _ _ hi)⟩

/-- C3 witness: the amended theorem applied at concrete connector-free
inputs. -/
theorem construct_unique_key_inj_amended_wit :
    (construct_unique_key "e" [(("k" : String), ("v" : String))] "_" =
      construct_unique_key "e" [("k", "v")] "_")
  ∧ (("ep" : String) = "ep" ∧ [(("k" : String), ("v" : String))] = [("k", "v")]) :=
  ⟨construct_unique_key_inj_amended.1 "e" [("k", "v")] [("k", "v")] rfl,
   construct_unique_key_inj_amended.2 "ep" "ep" [("k", "v")] [("k", "v")]
     (by decide) (by decide) (by decide) (by decide) rfl⟩

/-
Claim C9.
-/

/-- C9 counterexample: when the cache file is absent, `open_cache` does
create a file and return an empty mapping, but the file it creates is
zero bytes long, which is not valid JSON — so a subsequent load of exactly
the file it created fails instead of succeeding with an empty store. -/
theorem open_cache_created_file_invalid_cex :
    open_cache none = (.ok [], some none)
  ∧ (open_cache (open_cache none).2).1 = .error () :=
  ⟨rfl, rfl⟩

/-- C9 (amended): when the cache file is absent, `open_cache` creates a
zero-byte file and returns an empty mapping, but the created file is not
valid JSON, so a subsequent load of it fails (fatally, at startup) rather
than returning an empty store; when the file exists but is not valid
JSON, the call fails fatally, as claimed. -/
theorem open_cache_amended :
    open_cache none = (.ok [], some none)
  ∧ open_cache (some none) = (.error (), some none) :=
  ⟨rfl, rfl⟩

/-
Claim C1.
-/

/-- C1 counterexample: `get_sites_for_state`, on a cache miss for the
state URL, inserts the link list into the in-memory store but performs no
disk write: starting from an in-memory store equal to the on-disk one,
after the call the on-disk document (still the serialized empty store) no
longer equals the in-memory store.  (The state page here has no site
anchors, so no later `get_site_instance` incidentally saves.) -/
theorem get_sites_for_state_no_flush_cex :
    get_sites_for_state ⟨fun _ => .resp 200 [], fun _ => .terr⟩
        "https://www.nps.gov/state/mi/index.htm" ⟨[], some (some [])⟩ =
      (.ok [], ⟨[("https://www.nps.gov/state/mi/index.htm", JVal.jarrs [])],
                some (some [])⟩)
  ∧ ((⟨[("https://www.nps.gov/state/mi/index.htm", JVal.jarrs [])],
        some (some [])⟩ : CState).disk ≠
      save_cache [("https://www.nps.gov/state/mi/index.htm", JVal.jarrs [])]) := by
  exact ⟨rfl, by decide⟩

/-- C1 (amended): the inserts in `build_state_url_dict`,
`get_site_instance` and `get_nearby_places` are each immediately followed
by serializing the entire in-memory store to disk, so the on-disk document
equals the in-memory store after those operations; but the insert of the
entity-link list in `get_sites_for_state` is not followed by a disk write
(the on-disk document is only updated if a later miss inside the site loop
triggers a save). -/
theorem flush_after_insert_amended :
    (∀ (idx : HFetch (List (String × String))) (st : CState) (s : Nat)
       (anchors : List (String × String)),
       alistLookup st.mem "https://www.nps.gov/index.htm" = none →
       idx = HFetch.resp s anchors →
       (build_state_url_dict idx st).2.disk =
         save_cache (build_state_url_dict idx st).2.mem)
  ∧ (∀ (f : String → HFetch SiteDoc) (url : String) (st : CState) (s : Nat)
       (doc : SiteDoc),
       alistLookup st.mem url = none → f url = HFetch.resp s doc →
       (get_site_instance f url st).2.disk =
         save_cache (get_site_instance f url st).2.mem)
  ∧ (∀ (api : HFetch JVal) (k z : String) (st : CState) (payload : JVal),
       alistLookup st.mem (nearbyKey k z) = none → api = HFetch.resp 200 payload →
       (get_nearby_places api k z st).2.disk =
         save_cache (get_nearby_places api k z st).2.mem) := by
  refine ⟨?_, ?_, ?_⟩
  · intro idx st s anchors hmiss hidx
    subst hidx
    simp [build_state_url_dict, hmiss]
  · intro f url st s doc hmiss hf
    simp [get_site_instance, hmiss, hf]
  · intro api k z st payload hmiss hapi
    subst hapi
    simp [get_nearby_places, hmiss]

/-- C1 witness: the amended theorem applied at concrete inputs. -/
theorem flush_after_insert_amended_wit :
    ((build_state_url_dict (.resp 200 [("Michigan", "/state/mi/index.htm")])
        ⟨[], none⟩).2.disk =
      save_cache (build_state_url_dict (.resp 200 [("Michigan", "/state/mi/index.htm")])
        ⟨[], none⟩).2.mem)
  ∧ ((get_site_instance (fun _ => .resp 200 ⟨none, none, none, none, none, none⟩)
        "u" ⟨[], none⟩).2.disk =
      save_cache (get_site_instance (fun _ => .resp 200 ⟨none, none, none, none, none, none⟩)
        "u" ⟨[], none⟩).2.mem)
  ∧ ((get_nearby_places (.resp 200 (JVal.jarrs [])) "K" "49931" ⟨[], none⟩).2.disk =
      save_cache (get_nearby_places (.resp 200 (JVal.jarrs [])) "K" "49931"
        ⟨[], none⟩).2.mem) :=
  ⟨flush_after_insert_amended.1 _ ⟨[], none⟩ 200 _ rfl rfl,
   flush_after_insert_amended.2.1 _ "u" ⟨[], none⟩ 200 _ rfl rfl,
   flush_after_insert_amended.2.2 _ "K" "49931" ⟨[], none⟩ _ rfl rfl⟩

/-
Claim C2.
-/

/-- C2 counterexample: a fetch of a missing page (HTTP 404, no locator
matches) is not surfaced as an error, and it does poison the cache: the
call succeeds and stores the all-sentinel entity record under the
requested URL, then flushes it to disk. -/
theorem html_fetch_failure_cached_cex :
    get_site_instance (fun _ => HFetch.resp 404 ⟨none, none, none, none, none, none⟩)
        "https://www.nps.gov/missing/index.htm" ⟨[], some (some [])⟩ =
      (.ok (⟨"No Category", "No Name", "No Address", "No Zipcode", "No Phone"⟩, true),
       ⟨[("https://www.nps.gov/missing/index.htm",
          JVal.jobjs [("category", "No Category"), ("name", "No Name"),
                      ("address", "No Address"), ("zipcode", "No Zipcode"),
                      ("phone", "No Phone")])],
        save_cache [("https://www.nps.gov/missing/index.htm",
          JVal.jobjs [("category", "No Category"), ("name", "No Name"),
                      ("address", "No Address"), ("zipcode", "No Zipcode"),
                      ("phone", "No Phone")])]⟩) := rfl

/-- C2 (amended): a transport error on any of the three HTML fetches
propagates to the caller as an (untyped) exception with no cache
insertion; but a non-success HTTP status is never detected — the three
catalog operations do not inspect the status code, so the response body
is processed exactly as a success would be, and in `get_site_instance`
the resulting (possibly all-sentinel) record is cached under the
requested URL. -/
theorem fetch_error_handling_amended :
    (∀ (f : String → HFetch SiteDoc) (url : String) (st : CState),
       alistLookup st.mem url = none → f url = HFetch.terr →
       get_site_instance f url st = (.error (), st))
  ∧ (∀ st : CState,
       alistLookup st.mem "https://www.nps.gov/index.htm" = none →
       build_state_url_dict .terr st = (.error (), st))
  ∧ (∀ (R : Remote) (surl : String) (st : CState),
       alistLookup st.mem surl = none → R.statePage surl = HFetch.terr →
       get_sites_for_state R surl st = (.error (), st))
  ∧ (∀ (f₁ f₂ : String → HFetch SiteDoc) (url : String) (st : CState)
       (s₁ s₂ : Nat) (doc : SiteDoc),
       f₁ url = HFetch.resp s₁ doc → f₂ url = HFetch.resp s₂ doc →
       get_site_instance f₁ url st = get_site_instance f₂ url st)
  ∧ (∀ (f : String → HFetch SiteDoc) (url : String) (st : CState) (s : Nat)
       (doc : SiteDoc),
       alistLookup st.mem url = none → f url = HFetch.resp s doc →
       alistLookup (get_site_instance f url st).2.mem url =
         some (siteToJobj (extractSite doc))) := by
  refine ⟨?_, ?_, ?_, ?_, ?_⟩
  · intro f url st hmiss hf
    simp [get_site_instance, hmiss, hf]
  · intro st hmiss
    simp [build_state_url_dict, hmiss]
  · intro R surl st hmiss hf
    simp [get_sites_for_state, hmiss, hf]
  · intro f₁ f₂ url st s₁ s₂ doc h₁ h₂
    cases h : alistLookup st.mem url <;>
      simp [get_site_instance, h, h₁, h₂]
  · intro f url st s doc hmiss hf
    simp [get_site_instance, hmiss, hf, alistLookup_insert_self]

/-- C2 witness: the amended theorem applied at concrete inputs. -/
theorem fetch_error_handling_amended_wit :
    get_site_instance (fun _ => HFetch.terr) "u" ⟨[], none⟩ = (.error (), ⟨[], none⟩)
  ∧ build_state_url_dict .terr ⟨[], none⟩ = (.error (), ⟨[], none⟩)
  ∧ get_sites_for_state ⟨fun _ => HFetch.terr, fun _ => HFetch.terr⟩ "su" ⟨[], none⟩ =
      (.error (), ⟨[], none⟩)
  ∧ get_site_instance (fun _ => HFetch.resp 404 ⟨none, none, none, none, none, none⟩)
        "u" ⟨[], none⟩ =
      get_site_instance (fun _ => HFetch.resp 200 ⟨none, none, none, none, none, none⟩)
        "u" ⟨[], none⟩
  ∧ alistLookup (get_site_instance
        (fun _ => HFetch.resp 404 ⟨none, none, none, none, none, none⟩)
        "u" ⟨[], none⟩).2.mem "u" =
      some (siteToJobj (extractSite ⟨none, none, none, none, none, none⟩)) :=
  ⟨fetch_error_handling_amended.1 _ "u" _ rfl rfl,
   fetch_error_handling_amended.2.1 _ rfl,
   fetch_error_handling_amended.2.2.1 _ "su" _ rfl rfl,
   fetch_error_handling_amended.2.2.2.1 _ _ "u" _ 404 200 _ rfl rfl,
   fetch_error_handling_amended.2.2.2.2 _ "u" _ 404 _ rfl rfl⟩

/-
Claims C4 and C5.
-/

/-- Keyword re-expansion of the field mapping the code itself caches
reconstructs the same entity. -/
theorem siteFromKwargs_siteToJobj (s : NationalSite) :
    siteFromKwargs (siteToJobj s) = some s := by
  cases s; rfl

/-- C4: extraction is total and per-field independent: for any input
document, each of the five fields of the extracted entity is either the
stripped located value or that field's documented sentinel (so extraction
always yields an entity and never fails), and each field's value depends
only on its own locator results — a locator failure on one field does not
change any other field. -/
theorem extraction_total_independent (d : SiteDoc) :
    ((∃ s, d.heroTitle = some s ∧ (extractSite d).name = s.trim) ∨
      (d.heroTitle = none ∧ (extractSite d).name = "No Name"))
  ∧ ((∃ s, d.heroDesignation = some s ∧ (extractSite d).category = s.trim) ∨
      (d.heroDesignation = none ∧ (extractSite d).category = "No Category"))
  ∧ ((∃ s, d.postalCode = some s ∧ (extractSite d).zipcode = s.trim) ∨
      (d.postalCode = none ∧ (extractSite d).zipcode = "No Zipcode"))
  ∧ ((∃ s, d.telephone = some s ∧ (extractSite d).phone = s.trim) ∨
      (d.telephone = none ∧ (extractSite d).phone = "No Phone"))
  ∧ ((∃ c r, d.addressLocality = some c ∧ d.addressRegion = some r ∧
        (extractSite d).address = c.trim ++ ", " ++ r.trim) ∨
      (extractSite d).address = "No Address")
  ∧ (∀ d2 : SiteDoc, d2.heroTitle = d.heroTitle →
      (extractSite d2).name = (extractSite d).name)
  ∧ (∀ d2 : SiteDoc, d2.heroDesignation = d.heroDesignation →
      (extractSite d2).category = (extractSite d).category)
  ∧ (∀ d2 : SiteDoc, d2.postalCode = d.postalCode →
      (extractSite d2).zipcode = (extractSite d).zipcode)
  ∧ (∀ d2 : SiteDoc, d2.telephone = d.telephone →
      (extractSite d2).phone = (extractSite d).phone)
  ∧ (∀ d2 : SiteDoc, d2.addressLocality = d.addressLocality →
      d2.addressRegion = d.addressRegion →
      (extractSite d2).address = (extractSite d).address) := by
  refine ⟨?_, ?_, ?_, ?_, ?_, ?_, ?_, ?_, ?_, ?_⟩
  · cases h : d.heroTitle with
    | some s => exact Or.inl ⟨s, rfl, by simp [extractSite, nameField, h]⟩
    | none => exact Or.inr ⟨rfl, by simp [extractSite, nameField, h]⟩
  · cases h : d.heroDesignation with
    | some s => exact Or.inl ⟨s, rfl, by simp [extractSite, cateField, h]⟩
    | none => exact Or.inr ⟨rfl, by simp [extractSite, cateField, h]⟩
  · cases h : d.postalCode with
    | some s => exact Or.inl ⟨s, rfl, by simp [extractSite, zipField, h]⟩
    | none => exact Or.inr ⟨rfl, by simp [extractSite, zipField, h]⟩
  · cases h : d.telephone with
    | some s => exact Or.inl ⟨s, rfl, by simp [extractSite, phoneField, h]⟩
    | none => exact Or.inr ⟨rfl, by simp [extractSite, phoneField, h]⟩
  · cases hc : d.addressLocality with
    | none => exact Or.inr (by simp [extractSite, addressField, hc])
    | some c =>
      cases hr : d.addressRegion with
      | none => exact Or.inr (by simp [extractSite, addressField, hc, hr])
      | some r =>
        exact Or.inl ⟨c, r, rfl, rfl, by simp [extractSite, addressField, hc, hr]⟩
  · intro d2 h
    simp [extractSite, nameField, h]
  · intro d2 h
    simp [extractSite, cateField, h]
  · intro d2 h
    simp [extractSite, zipField, h]
  · intro d2 h
    simp [extractSite, phoneField, h]
  · intro d2 h1 h2
    simp [extractSite, addressField, h1, h2]

/-- C4 witness: field independence applied at concrete documents —
removing the designation/phone locators does not change the name, and
adding unrelated locators does not change the (failed) address. -/
theorem extraction_total_independent_wit :
    (extractSite ⟨some "A", some "B", some "C", none, some "D", some "E"⟩).name =
      (extractSite ⟨some "A", none, none, none, none, none⟩).name
  ∧ (extractSite ⟨some "A", some "B", some "C", none, some "D", some "E"⟩).address =
      (extractSite ⟨none, none, none, none, some "D", some "E"⟩).address :=
  ⟨(extraction_total_independent ⟨some "A", none, none, none, none, none⟩).2.2.2.2.2.1
     ⟨some "A", some "B", some "C", none, some "D", some "E"⟩ rfl,
   (extraction_total_independent ⟨none, none, none, none, some "D", some "E"⟩).2.2.2.2.2.2.2.2.2
     ⟨some "A", some "B", some "C", none, some "D", some "E"⟩ rfl rfl⟩

/-- C5: address extraction is all-or-nothing: the address is the
composition `city.trim ++ ", " ++ state.trim` exactly when both the
locality and region locators succeed; if either is missing the whole
field is the sentinel `"No Address"`, never a partially composed
string. -/
theorem address_all_or_nothing (d : SiteDoc) :
    (∀ c r, d.addressLocality = some c → d.addressRegion = some r →
      (extractSite d).address = c.trim ++ ", " ++ r.trim)
  ∧ (d.addressLocality = none → (extractSite d).address = "No Address")
  ∧ (d.addressRegion = none → (extractSite d).address = "No Address") := by
  refine ⟨?_, ?_, ?_⟩
  · intro c r hc hr
    simp [extractSite, addressField, hc, hr]
  · intro hc
    simp [extractSite, addressField, hc]
  · intro hr
    cases hc : d.addressLocality with
    | none => simp [extractSite, addressField, hc]
    | some c => simp [extractSite, addressField, hc, hr]

/-- C5 witness: both sub-values present composes; locality present but
region absent yields the sentinel, not a partial composition. -/
theorem address_all_or_nothing_wit :
    (extractSite ⟨none, none, none, none, some " Houghton ", some " MI "⟩).address =
      " Houghton ".trim ++ ", " ++ " MI ".trim
  ∧ (extractSite ⟨none, none, none, none, some "Houghton", none⟩).address =
      "No Address" :=
  ⟨(address_all_or_nothing ⟨none, none, none, none, some " Houghton ", some " MI "⟩).1
     " Houghton " " MI " rfl rfl,
   (address_all_or_nothing ⟨none, none, none, none, some "Houghton", none⟩).2.2 rfl⟩

/-
Claim C6.
-/

/-- C6: `get_site_instance` is idempotent: whenever a call returns an
entity, an immediately repeated call for the same URL (against the same
remote) returns an entity identical in all five fields, leaves the cache
state unchanged, and performs no network access (the `false` flag): the
entity is reconstructed from the cached field mapping. -/
theorem get_site_instance_idempotent (f : String → HFetch SiteDoc) (url : String)
    (st st2 : CState) (site : NationalSite) (b : Bool)
    (h : get_site_instance f url st = (.ok (site, b), st2)) :
    get_site_instance f url st2 = (.ok (site, false), st2) := by
  cases hl : alistLookup st.mem url with
  | some v =>
    cases hk : siteFromKwargs v with
    | none =>
      simp only [get_site_instance, hl, hk] at h
      simp at h
    | some s =>
      simp only [get_site_instance, hl, hk] at h
      simp only [Prod.mk.injEq, Except.ok.injEq] at h
      obtain ⟨⟨h1, h2⟩, h3⟩ := h
      subst h3
      simp [get_site_instance, hl, hk, h1]
  | none =>
    cases hf : f url with
    | terr =>
      simp only [get_site_instance, hl, hf] at h
      simp at h
    | resp s doc =>
      simp only [get_site_instance, hl, hf] at h
      simp only [Prod.mk.injEq, Except.ok.injEq] at h
      obtain ⟨⟨h1, h2⟩, h3⟩ := h
      subst h3
      simp [get_site_instance, alistLookup_insert_self, siteFromKwargs_siteToJobj, h1]

/-- C6 witness: a miss followed by a repeat call at the resulting state. -/
theorem get_site_instance_idempotent_wit :
    get_site_instance (fun _ => HFetch.resp 200 ⟨none, none, none, none, none, none⟩) "u"
      ⟨[("u", JVal.jobjs [("category", "No Category"), ("name", "No Name"),
          ("address", "No Address"), ("zipcode", "No Zipcode"), ("phone", "No Phone")])],
        save_cache [("u", JVal.jobjs [("category", "No Category"), ("name", "No Name"),
          ("address", "No Address"), ("zipcode", "No Zipcode"), ("phone", "No Phone")])]⟩ =
      (.ok (⟨"No Category", "No Name", "No Address", "No Zipcode", "No Phone"⟩, false),
       ⟨[("u", JVal.jobjs [("category", "No Category"), ("name", "No Name"),
          ("address", "No Address"), ("zipcode", "No Zipcode"), ("phone", "No Phone")])],
        save_cache [("u", JVal.jobjs [("category", "No Category"), ("name", "No Name"),
          ("address", "No Address"), ("zipcode", "No Zipcode"), ("phone", "No Phone")])]⟩) :=
  get_site_instance_idempotent
    (fun _ => HFetch.resp 200 ⟨none, none, none, none, none, none⟩) "u" ⟨[], none⟩
    ⟨[("u", JVal.jobjs [("category", "No Category"), ("name", "No Name"),
        ("address", "No Address"), ("zipcode", "No Zipcode"), ("phone", "No Phone")])],
      save_cache [("u", JVal.jobjs [("category", "No Category"), ("name", "No Name"),
        ("address", "No Address"), ("zipcode", "No Zipcode"), ("phone", "No Phone")])]⟩
    ⟨"No Category", "No Name", "No Address", "No Zipcode", "No Phone"⟩ true rfl

/-
Claim C7.
-/

/-- C7: `get_nearby_places` returns the stored payload verbatim on a
cache hit (with no network access and no state change); on a miss with a
non-success status it fails and leaves the cache unchanged; on a miss
with a success status it caches the raw payload under the unique key,
flushes, and returns the payload unmodified. -/
theorem get_nearby_places_contract (api : HFetch JVal) (k z : String) (st : CState) :
    (∀ v, alistLookup st.mem (nearbyKey k z) = some v →
       get_nearby_places api k z st = (.ok v, st))
  ∧ (∀ s payload, alistLookup st.mem (nearbyKey k z) = none →
       api = HFetch.resp s payload → s ≠ 200 →
       get_nearby_places api k z st = (.error (), st))
  ∧ (∀ payload, alistLookup st.mem (nearbyKey k z) = none →
       api = HFetch.resp 200 payload →
       get_nearby_places api k z st =
         (.ok payload,
          ⟨alistInsert st.mem (nearbyKey k z) payload,
           save_cache (alistInsert st.mem (nearbyKey k z) payload)⟩)) := by
  refine ⟨?_, ?_, ?_⟩
  · intro v hv
    simp [get_nearby_places, hv]
  · intro s payload hmiss hapi hs
    subst hapi
    simp [get_nearby_places, hmiss, hs]
  · intro payload hmiss hapi
    subst hapi
    simp [get_nearby_places, hmiss]

/-- C7 witness: the contract applied on a hit, a failed miss, and a
successful miss, at concrete inputs. -/
theorem get_nearby_places_contract_wit :
    get_nearby_places HFetch.terr "K" "49931"
        ⟨[(nearbyKey "K" "49931", JVal.jarrs ["x"])], none⟩ =
      (.ok (JVal.jarrs ["x"]), ⟨[(nearbyKey "K" "49931", JVal.jarrs ["x"])], none⟩)
  ∧ get_nearby_places (HFetch.resp 500 (JVal.jarrs [])) "K" "49931" ⟨[], none⟩ =
      (.error (), ⟨[], none⟩)
  ∧ get_nearby_places (HFetch.resp 200 (JVal.jarrs [])) "K" "49931" ⟨[], none⟩ =
      (.ok (JVal.jarrs []),
       ⟨alistInsert [] (nearbyKey "K" "49931") (JVal.jarrs []),
        save_cache (alistInsert [] (nearbyKey "K" "49931") (JVal.jarrs []))⟩) :=
  ⟨(get_nearby_places_contract HFetch.terr "K" "49931"
      ⟨[(nearbyKey "K" "49931", JVal.jarrs ["x"])], none⟩).1 (JVal.jarrs ["x"]) (by simp [alistLookup]),
   (get_nearby_places_contract (HFetch.resp 500 (JVal.jarrs [])) "K" "49931"
      ⟨[], none⟩).2.1 500 (JVal.jarrs []) rfl rfl (by decide),
   (get_nearby_places_contract (HFetch.resp 200 (JVal.jarrs [])) "K" "49931"
      ⟨[], none⟩).2.2 (JVal.jarrs []) rfl rfl⟩

/-
Claim C8.
-/

/-- C8 counterexample: two runs of `get_nearby_places` that differ only in
the credential write different keys to the persisted cache document — the
unique key embeds the `key` parameter, so the credential is persisted. -/
theorem credential_in_cache_key_cex :
    (get_nearby_places (.resp 200 (JVal.jarrs [])) "SECRETA" "49931" ⟨[], none⟩).2.mem ≠
      (get_nearby_places (.resp 200 (JVal.jarrs [])) "SECRETB" "49931" ⟨[], none⟩).2.mem := by
  decide

/-- C8 (amended): the API credential is embedded in the cache key that
`get_nearby_places` persists: the key contains the credential as a
substring (in the documented parameter position), distinct credentials
yield distinct keys — so two runs differing only in the credential write
different keys to the on-disk cache document — and on a successful miss
the payload is stored and flushed under exactly that credential-bearing
key. -/
theorem credential_in_cache_key_amended (k1 k2 z : String) (payload : JVal)
    (st : CState) (hne : k1 ≠ k2) :
    (∃ pre post : List Char, (nearbyKey k1 z).data = pre ++ (k1.data ++ post))
  ∧ nearbyKey k1 z ≠ nearbyKey k2 z
  ∧ (alistLookup st.mem (nearbyKey k1 z) = none →
      get_nearby_places (.resp 200 payload) k1 z st =
        (.ok payload,
         ⟨alistInsert st.mem (nearbyKey k1 z) payload,
          save_cache (alistInsert st.mem (nearbyKey k1 z) payload)⟩)) := by
  refine ⟨?_, ?_, ?_⟩
  · refine ⟨"http://www.mapquestapi.com/search/v2/radius".data ++ ('_' :: ("key".data ++ ['_'])),
        flatC (paramData [("origin", z), ("radius", "10"), ("maxMatches", "10"),
          ("ambiguities", "ignore"), ("outFormat", "json")]), ?_⟩
    rw [nearbyKey, cuk_data]
    simp [nearbyParams, paramData, flatC, List.append_assoc]
  · intro heq
    have hd := congrArg String.data heq
    rw [nearbyKey, nearbyKey, cuk_data, cuk_data] at hd
    simp only [nearbyParams, paramData, List.map_cons, List.map_nil, flatC] at hd
    have h1 := List.append_cancel_left hd
    injection h1 with _ h2
    have h3 := List.append_cancel_left h2
    injection h3 with _ h4
    have h5 := List.append_cancel_right h4
    exact hne (string_eq_of_data h5)
  · intro hmiss
    simp [get_nearby_places, hmiss]

/-- C8 witness: the amended theorem applied at concrete credentials. -/
theorem credential_in_cache_key_amended_wit :
    (∃ pre post : List Char, (nearbyKey "A" "49931").data = pre ++ ("A".data ++ post))
  ∧ nearbyKey "A" "49931" ≠ nearbyKey "B" "49931"
  ∧ get_nearby_places (.resp 200 (JVal.jarrs [])) "A" "49931" ⟨[], none⟩ =
      (.ok (JVal.jarrs []),
       ⟨alistInsert [] (nearbyKey "A" "49931") (JVal.jarrs []),
        save_cache (alistInsert [] (nearbyKey "A" "49931") (JVal.jarrs []))⟩) :=
  have h := credential_in_cache_key_amended "A" "B" "49931" (JVal.jarrs [])
    ⟨[], none⟩ (by decide)
  ⟨h.1, h.2.1, h.2.2 rfl⟩

/-
Claim C10.
-/

/-- Keyword expansion of an object value succeeds exactly when its key
set is precisely the five constructor parameter names. -/
theorem siteFromKwargs_isSome_iff (fields : List (String × String)) :
    (siteFromKwargs (JVal.jobjs fields)).isSome ↔
      (fields.map Prod.fst ⊆ fiveNames ∧ fiveNames ⊆ fields.map Prod.fst) := by
  constructor
  · intro hs
    rw [Option.isSome_iff_exists] at hs
    obtain ⟨site, hsite⟩ := hs
    simp only [siteFromKwargs] at hsite
    split at hsite
    next c n a z p hc hn ha hz hp =>
      split at hsite
      next hall =>
        constructor
        · intro x hx
          obtain ⟨kv, hkv, rfl⟩ := List.mem_map.mp hx
          exact of_decide_eq_true (List.all_eq_true.mp hall kv hkv)
        · intro x hx
          simp only [fiveNames, List.mem_cons, List.not_mem_nil, or_false] at hx
          rcases hx with rfl | rfl | rfl | rfl | rfl
          · exact (alistLookup_isSome_iff_mem fields _).mp (by simp [hc])
          · exact (alistLookup_isSome_iff_mem fields _).mp (by simp [hn])
          · exact (alistLookup_isSome_iff_mem fields _).mp (by simp [ha])
          · exact (alistLookup_isSome_iff_mem fields _).mp (by simp [hz])
          · exact (alistLookup_isSome_iff_mem fields _).mp (by simp [hp])
      next => exact absurd hsite (by simp)
    next => exact absurd hsite (by simp)
  · intro ⟨hsub, hsup⟩
    obtain ⟨c, hc⟩ := Option.isSome_iff_exists.mp
      ((alistLookup_isSome_iff_mem fields "category").mpr (hsup (by simp [fiveNames])))
    obtain ⟨n, hn⟩ := Option.isSome_iff_exists.mp
      ((alistLookup_isSome_iff_mem fields "name").mpr (hsup (by simp [fiveNames])))
    obtain ⟨a, ha⟩ := Option.isSome_iff_exists.mp
      ((alistLookup_isSome_iff_mem fields "address").mpr (hsup (by simp [fiveNames])))
    obtain ⟨z, hz⟩ := Option.isSome_iff_exists.mp
      ((alistLookup_isSome_iff_mem fields "zipcode").mpr (hsup (by simp [fiveNames])))
    obtain ⟨p, hp⟩ := Option.isSome_iff_exists.mp
      ((alistLookup_isSome_iff_mem fields "phone").mpr (hsup (by simp [fiveNames])))
    have hall : fields.all (fun kv => decide (kv.1 ∈ fiveNames)) = true :=
      List.all_eq_true.mpr (fun kv hkv => decide_eq_true (hsub (List.mem_map_of_mem _ hkv)))
    simp [siteFromKwargs, hc, hn, ha, hz, hp, hall]

/-- C10: on the cache-hit path, `get_site_instance` keyword-expands the
cached value into the `NationalSite` constructor: the call succeeds (with
no fetch and no state change) precisely when the cached value under the
URL is a mapping whose key set is exactly
`{category, name, address, zipcode, phone}`; any other shape — a string,
a list, or a mapping with missing or extra keys — makes the call fail
rather than return an entity. -/
theorem site_rehydration_shape (f : String → HFetch SiteDoc) (url : String)
    (st : CState) (v : JVal) (h : alistLookup st.mem url = some v) :
    get_site_instance f url st =
      (match siteFromKwargs v with
       | some s => (Except.ok (s, false), st)
       | none => (Except.error (), st))
  ∧ ((siteFromKwargs v).isSome ↔
      ∃ fields, v = JVal.jobjs fields ∧
        fields.map Prod.fst ⊆ fiveNames ∧ fiveNames ⊆ fields.map Prod.fst) := by
  constructor
  · cases hk : siteFromKwargs v <;> simp [get_site_instance, h, hk]
  · cases v with
    | jstr s => simp [siteFromKwargs]
    | jarrs l => simp [siteFromKwargs]
    | jobjs fields =>
      rw [siteFromKwargs_isSome_iff]
      constructor
      · intro ⟨h1, h2⟩
        exact ⟨fields, rfl, h1, h2⟩
      · rintro ⟨fields2, heq, h1, h2⟩
        injection heq with heq2
        subst heq2
        exact ⟨h1, h2⟩

/-- C10 witness: the shape characterization applied at a concrete hit on
a non-mapping cached value. -/
theorem site_rehydration_shape_wit :
    get_site_instance (fun _ => HFetch.terr) "u" ⟨[("u", JVal.jarrs ["x"])], none⟩ =
      (match siteFromKwargs (JVal.jarrs ["x"]) with
       | some s => (Except.ok (s, false), (⟨[("u", JVal.jarrs ["x"])], none⟩ : CState))
       | none => (Except.error (), (⟨[("u", JVal.jarrs ["x"])], none⟩ : CState)))
  ∧ ((siteFromKwargs (JVal.jarrs ["x"])).isSome ↔
      ∃ fields, JVal.jarrs ["x"] = JVal.jobjs fields ∧
        fields.map Prod.fst ⊆ fiveNames ∧ fiveNames ⊆ fields.map Prod.fst) :=
  site_rehydration_shape (fun _ => HFetch.terr) "u"
    ⟨[("u", JVal.jarrs ["x"])], none⟩ (JVal.jarrs ["x"]) rfl
